import Mathlib

/-!
Shallow embedding of `src/Container.js` (chalasr/container.js), a microscopic
dependency-injection container, together with proofs about its behaviour.

The container owns three JavaScript `Map`s (`cache`, `services`, `parameters`).
A JS `Map` iterates in insertion order, so each map is embedded as an
association list `List (String × α)` in insertion order; `Map.get`/`has`/`set`
are embedded as `mapGet`/`mapHas`/`mapSet` below.

JS values that can flow through the container are embedded as the inductive
`Value`: scalars, `null`, functions (carrying their `name` property, which is
what `isConstructor` inspects), and constructed instances.  `new C(...args)`
is modelled as producing a fresh instance value `Value.obj` recording the
constructor's name, the positional argument list, and a fresh allocation
identifier drawn from a counter threaded through the state — two evaluations
of `new` never yield the same reference, which the allocation identifier
captures.

Thrown exceptions are embedded as `Except` errors.  `fetch`/`resolve` recurse
through the dependency graph without cycle detection, so the embedding takes a
fuel argument; exhausted fuel (`JsErr.outOfFuel`) models the unbounded
recursion a cyclic registration produces.
-/

namespace Container

/-- A JavaScript value as far as the container is concerned: scalars, `null`,
functions (with their `name` property) and constructed instances.  An
instance records the constructor's name, the positional constructor
arguments, and a fresh allocation id (reference identity). -/
inductive Value where
  | str : String → Value
  | num : Int → Value
  | boolV : Bool → Value
  | nullV : Value
  | func : String → Value
  | obj : String → List Value → Nat → Value

/-- The record stored by `registerDefinition`:
`this.services.set(name, { classname, name, dependencies, tag })`.
The source object literal has NO `shared` property, so reading
`definition.shared` yields `undefined`; the field is embedded as
`shared? : Option Bool` with `none` standing for an absent property
(`undefined`) and `some b` for a present boolean property. -/
structure Definition where
  classname : Value
  name : String
  dependencies : List String
  tag : Option String
  shared? : Option Bool

/-- Errors thrown by the embedded code.
`ContainerNotFoundError` and `ContainerDuplicateError` are imported by
`Container.js` but their class files are not in the sources; modelled from
the spec: `KeyNotFoundError` carries the key name, `DuplicateKeyError`
carries the key name and which registry ("parameter" or "service") already
holds it — matching the arguments `Container.js` passes at the throw sites.
`typeError` models `new` applied to a non-function; `unboundName` models the
`ReferenceError` from evaluating the unbound identifier `name` on line 122 of
`resolve` (strict-mode module semantics); `outOfFuel` models the unbounded
recursion of a cyclic dependency graph. -/
inductive JsErr where
  | notFound : String → JsErr
  | duplicate : String → String → JsErr
  | typeError : JsErr
  | unboundName : JsErr
  | outOfFuel : JsErr
deriving DecidableEq

/-- The container's mutable state: the three maps created in the constructor,
plus the allocation counter used to give each `new`-constructed instance a
fresh identity. -/
structure State where
  cache : List (String × Value)
  services : List (String × Definition)
  parameters : List (String × Value)
  nextId : Nat

/-- The state right after `new Container()`: three empty maps. -/
def initialState : State := { cache := [], services := [], parameters := [], nextId := 0 }

/-- `Map.prototype.get` (with `undefined` as `none`). -/
def mapGet {α : Type} : List (String × α) → String → Option α
  | [], _ => none
  | (k, v) :: rest, key => if k = key then some v else mapGet rest key

/-- `Map.prototype.has`. -/
def mapHas {α : Type} (m : List (String × α)) (key : String) : Bool :=
  (mapGet m key).isSome

/-- `Map.prototype.set`: updates the value in place when the key is present
(keeping its position in iteration order), appends otherwise. -/
def mapSet {α : Type} (m : List (String × α)) (key : String) (v : α) : List (String × α) :=
  if mapHas m key then m.map (fun p => if p.1 = key then (key, v) else p)
  else m ++ [(key, v)]

/-- `Array.from(map.values())`: the values in insertion order. -/
def mapValues {α : Type} (m : List (String × α)) : List α :=
  m.map Prod.snd

/-- JS truthiness of a possibly-absent boolean property: `undefined` is
falsy, a present boolean is its own truth value. -/
def truthy : Option Bool → Bool
  | none => false
  | some b => b

/-- `static isConstructor(classname)`:
`typeof (classname) === 'function' && classname.name !== ''`. -/
def isConstructor : Value → Bool
  | .func n => n ≠ ""
  | _ => false

/-- `ensureUniqueness(name)`: throws `ContainerDuplicateError(name, 'parameter')`
if the parameter map has the key, then `ContainerDuplicateError(name, 'service')`
if the service map has it. -/
def ensureUniqueness (st : State) (name : String) : Except JsErr Unit :=
  if mapHas st.parameters name then .error (.duplicate name "parameter")
  else if mapHas st.services name then .error (.duplicate name "service")
  else .ok ()

/-- `registerDefinition(name, classname, dependencies, tag, shared)`:
after the uniqueness check, stores `{ classname, name, dependencies, tag }`.
The object literal omits `shared`, so the stored record's `shared?` property
is absent (`none`) whatever the caller passed; the `shared` argument is
otherwise unused. -/
def registerDefinition (st : State) (name : String) (classname : Value)
    (dependencies : List String) (tag : Option String) (shared : Bool) :
    Except JsErr State :=
  match ensureUniqueness st name with
  | .error e => .error e
  | .ok _ =>
      let _ := shared
      .ok { st with
            services := mapSet st.services name
              { classname := classname, name := name,
                dependencies := dependencies, tag := tag, shared? := none } }

/-- `registerParameter(name, value)`: after the uniqueness check, stores the
value verbatim. -/
def registerParameter (st : State) (name : String) (value : Value) :
    Except JsErr State :=
  match ensureUniqueness st name with
  | .error e => .error e
  | .ok _ => .ok { st with parameters := mapSet st.parameters name value }

/-- `register(name, value, dependencies = [], tag = null, shared = true)`:
dispatches on `Container.isConstructor(value)`. -/
def register (st : State) (name : String) (value : Value)
    (dependencies : List String) (tag : Option String) (shared : Bool) :
    Except JsErr State :=
  if isConstructor value then
    registerDefinition st name value dependencies tag shared
  else
    registerParameter st name value

/-- `getTaggedService(tag)`:
`Array.from(this.services.values()).filter(definition => definition.tag === tag)`. -/
def getTaggedService (st : State) (tag : Option String) : List Definition :=
  (mapValues st.services).filter (fun d => decide (d.tag = tag))

/-- `new Constructor(...dependencies)`: constructing via a function value
yields a fresh instance; `new` on a non-function throws a `TypeError`. -/
def construct (ctor : Value) (args : List Value) (allocId : Nat) : Except JsErr Value :=
  match ctor with
  | .func fname => .ok (.obj fname args allocId)
  | _ => .error .typeError

/-- `definition.dependencies.map(this.fetch)`: fetches each dependency key in
list order, threading the container state left to right, and collects the
resolved values in the same order.  Parametrised by the `fetch` recursion. -/
def fetchDeps (f : State → String → Except JsErr (Value × State)) :
    State → List String → Except JsErr (List Value × State)
  | st, [] => .ok ([], st)
  | st, d :: ds =>
      match f st d with
      | .error e => .error e
      | .ok (v, st1) =>
          match fetchDeps f st1 ds with
          | .error e => .error e
          | .ok (vs, st2) => .ok (v :: vs, st2)

/-- `resolve(definition)`, parametrised by the `fetch` recursion:
```
const shared = definition.shared;
if (shared && this.cache.has(name)) { return this.cache.get(name); }
const dependencies = definition.dependencies.map(this.fetch);
const Constructor = definition.classname;
const service = new Constructor(...dependencies);
if (shared) { this.cache.set(definition.name, service); }
return service;
```
`definition.shared` reads the `shared?` property (absent on every record
`registerDefinition` stores, hence `undefined`).  When it is truthy the
condition evaluates the identifier `name`, which is unbound in this scope, so
strict-mode evaluation throws a `ReferenceError` (`unboundName`); for every
record the container actually stores, `shared` is `undefined` and the whole
branch is skipped by short-circuiting. -/
def resolve (f : State → String → Except JsErr (Value × State))
    (st : State) (defn : Definition) : Except JsErr (Value × State) :=
  let shared := defn.shared?
  if truthy shared then .error .unboundName
  else
    match fetchDeps f st defn.dependencies with
    | .error e => .error e
    | .ok (args, st1) =>
        match construct defn.classname args st1.nextId with
        | .error e => .error e
        | .ok service =>
            let st2 : State := { st1 with nextId := st1.nextId + 1 }
            let st3 : State :=
              if truthy shared then { st2 with cache := mapSet st2.cache defn.name service }
              else st2
            .ok (service, st3)

/-- `fetch(name)`: resolve a service, else return a parameter, else throw
`ContainerNotFoundError(name)`.  The extra `Nat` is fuel for the unbounded
mutual recursion with `resolve`; `fuel = 0` models a resolution that never
terminates (cyclic dependency graph). -/
def fetch : Nat → State → String → Except JsErr (Value × State)
  | 0, _, _ => .error .outOfFuel
  | fuel + 1, st, name =>
      match mapGet st.services name with
      | some defn => resolve (fetch fuel) st defn
      | none =>
          match mapGet st.parameters name with
          | some v => .ok (v, st)
          | none => .error (.notFound name)

/-- The container states reachable from `new Container()` through the public
operations (`register`, `registerDefinition`, `registerParameter`, `fetch`;
`getTaggedService` does not mutate). -/
inductive Reachable : State → Prop where
  | init : Reachable initialState
  | reg {st st' : State} {name : String} {value : Value} {deps : List String}
      {tag : Option String} {shared : Bool} :
      Reachable st → register st name value deps tag shared = .ok st' → Reachable st'
  | regDef {st st' : State} {name : String} {classname : Value} {deps : List String}
      {tag : Option String} {shared : Bool} :
      Reachable st → registerDefinition st name classname deps tag shared = .ok st' →
      Reachable st'
  | regParam {st st' : State} {name : String} {value : Value} :
      Reachable st → registerParameter st name value = .ok st' → Reachable st'
  | fetched {st st' : State} {fuel : Nat} {name : String} {v : Value} :
      Reachable st → fetch fuel st name = .ok (v, st') → Reachable st'

/-- `fetch` (and the `resolve` recursion underneath it) never touches the two
registries nor the instance cache; the allocation counter only grows. -/
def Preserves (st st' : State) : Prop :=
  st'.services = st.services ∧ st'.parameters = st.parameters ∧
  st'.cache = st.cache ∧ st.nextId ≤ st'.nextId

/-- The §3 invariant: no key is simultaneously a parameter key and a
service-definition key. -/
def DisjointKeys (st : State) : Prop :=
  ∀ k, ¬(mapHas st.parameters k = true ∧ mapHas st.services k = true)

/-- Modelled from the spec: step 2 of `resolve` — "for each key in
`definition.dependencies`, call `fetch` to obtain its resolved value,
producing an ordered argument list preserving the dependency list's order
(dependency order is significant: it is positional-argument order for
construction)".  `FetchesInOrder f st ds vs stEnd` holds when fetching the
keys `ds` one by one, left to right, starting from `st`, succeeds and yields
exactly the values `vs`, the value at each position coming from the
dependency key at the same position. -/
inductive FetchesInOrder (f : State → String → Except JsErr (Value × State)) :
    State → List String → List Value → State → Prop where
  | nil (st : State) : FetchesInOrder f st [] [] st
  | cons {st st1 st2 : State} {d : String} {ds : List String} {v : Value} {vs : List Value} :
      f st d = .ok (v, st1) → FetchesInOrder f st1 ds vs st2 →
      FetchesInOrder f st (d :: ds) (v :: vs) st2

/-- Modelled from the spec: `isConstructor` "returns true iff `value` is
callable AND has a non-empty name identifier".  Stated independently of the
source predicate so the two can be compared. -/
def SpecServiceFactory (v : Value) : Prop :=
  ∃ fname, v = .func fname ∧ fname ≠ ""

/-- The worked scenario of the spec: a container holding the parameter
`"db.host" = "localhost"`, the dependency-free service `"Logger"` tagged
`"core"`, and the service `"App"` depending on `["Logger", "db.host"]` —
exactly the state produced by the three `register` calls (every stored
definition record lacks the `shared` property, which `registerDefinition`
drops). -/
def scenarioState : State :=
  { cache := [],
    services :=
      [("Logger", { classname := .func "Logger", name := "Logger",
                    dependencies := [], tag := some "core", shared? := none }),
       ("App", { classname := .func "App", name := "App",
                 dependencies := ["Logger", "db.host"], tag := none,
                 shared? := none })],
    parameters := [("db.host", .str "localhost")],
    nextId := 0 }

end Container

namespace Container

/-! ### Association-list (`Map`) lemmas -/

theorem mapGet_append_of_some {α : Type} {m : List (String × α)} {k : String} {w : α}
    (h : mapGet m k = some w) (l : List (String × α)) :
    mapGet (m ++ l) k = some w := by
  induction m with
  | nil => simp [mapGet] at h
  | cons p rest ih =>
      obtain ⟨pk, pv⟩ := p
      by_cases hpk : pk = k
      · simp only [mapGet, List.cons_append, if_pos hpk] at h ⊢
        exact h
      · simp only [mapGet, List.cons_append, if_neg hpk] at h ⊢
        exact ih h

theorem mapGet_append_of_none {α : Type} {m : List (String × α)} {k : String}
    (h : mapGet m k = none) (l : List (String × α)) :
    mapGet (m ++ l) k = mapGet l k := by
  induction m with
  | nil => simp [mapGet]
  | cons p rest ih =>
      obtain ⟨pk, pv⟩ := p
      by_cases hpk : pk = k
      · simp only [mapGet, if_pos hpk] at h
        exact absurd h (by simp)
      · simp only [mapGet, List.cons_append, if_neg hpk] at h ⊢
        exact ih h

theorem mapGet_single {α : Type} (key k : String) (v : α) :
    mapGet [(key, v)] k = if key = k then some v else none := by
  simp [mapGet]

theorem mapSet_of_not_has {α : Type} {m : List (String × α)} {key : String} (v : α)
    (h : mapHas m key = false) :
    mapSet m key v = m ++ [(key, v)] := by
  simp [mapSet, h]

theorem mapHas_iff_get {α : Type} (m : List (String × α)) (k : String) :
    mapHas m k = true ↔ ∃ w, mapGet m k = some w := by
  simp [mapHas, Option.isSome_iff_exists]

/-! ### Frame: what a successful `fetch` can change -/

theorem preserves_self (st : State) : Preserves st st :=
  ⟨rfl, rfl, rfl, Nat.le_refl _⟩

theorem preserves_trans {a b c : State} (h1 : Preserves a b) (h2 : Preserves b c) :
    Preserves a c :=
  ⟨h2.1.trans h1.1, h2.2.1.trans h1.2.1, h2.2.2.1.trans h1.2.2.1,
    Nat.le_trans h1.2.2.2 h2.2.2.2⟩

/-- Inversion of a successful `resolve`: the truthy-`shared` branch can only
throw, so success means the stored `shared?` property was absent or `false`,
the dependencies were fetched in order, the classname was a function, and the
result is a freshly allocated instance of it applied to those arguments. -/
theorem resolve_ok_inv {f : State → String → Except JsErr (Value × State)}
    {st : State} {defn : Definition} {v : Value} {st' : State}
    (h : resolve f st defn = .ok (v, st')) :
    truthy defn.shared? = false ∧
    ∃ args st1 fname,
      fetchDeps f st defn.dependencies = .ok (args, st1) ∧
      defn.classname = .func fname ∧
      v = .obj fname args st1.nextId ∧
      st' = { st1 with nextId := st1.nextId + 1 } := by
  simp only [resolve] at h
  split at h
  · exact Except.noConfusion h
  · next ht =>
      have ht' : truthy defn.shared? = false := by
        revert ht
        cases truthy defn.shared? <;> simp
      split at h
      · exact Except.noConfusion h
      · next args st1 hdeps =>
          split at h
          · exact Except.noConfusion h
          · next service hcons =>
              injection h with h2
              injection h2 with hv hst
              cases hcl : defn.classname
              case func fname =>
                rw [hcl] at hcons
                simp only [construct] at hcons
                injection hcons with hserv
                exact ⟨ht', args, st1, fname, hdeps, rfl, by rw [← hv, ← hserv], hst.symm⟩
              all_goals rw [hcl] at hcons
              all_goals simp only [construct] at hcons
              all_goals exact Except.noConfusion hcons

/-- Unfolding `fetch` at positive fuel when the name is a service. -/
theorem fetch_succ_service {st : State} {nm : String} {defn : Definition} (fuel : Nat)
    (hs : mapGet st.services nm = some defn) :
    fetch (fuel + 1) st nm = resolve (fetch fuel) st defn := by
  simp [fetch, hs]

/-- Unfolding `fetch` at positive fuel when the name is a parameter (and not a
service): the stored value itself comes back and the state is untouched. -/
theorem fetch_succ_param {st : State} {nm : String} {v : Value} (fuel : Nat)
    (hs : mapGet st.services nm = none) (hp : mapGet st.parameters nm = some v) :
    fetch (fuel + 1) st nm = .ok (v, st) := by
  simp [fetch, hs, hp]

/-- Unfolding `fetch` at positive fuel when the name is in neither registry:
`ContainerNotFoundError(name)` is thrown. -/
theorem fetch_succ_missing {st : State} {nm : String} (fuel : Nat)
    (hs : mapGet st.services nm = none) (hp : mapGet st.parameters nm = none) :
    fetch (fuel + 1) st nm = .error (.notFound nm) := by
  simp [fetch, hs, hp]

theorem fetchDeps_preserves {f : State → String → Except JsErr (Value × State)}
    (hf : ∀ st d v st', f st d = .ok (v, st') → Preserves st st') :
    ∀ (ds : List String) (st : State) (vs : List Value) (st' : State),
      fetchDeps f st ds = .ok (vs, st') → Preserves st st' := by
  intro ds
  induction ds with
  | nil =>
      intro st vs st' h
      simp only [fetchDeps] at h
      injection h with h2
      injection h2 with hvs hst
      rw [← hst]
      exact preserves_self st
  | cons d ds ih =>
      intro st vs st' h
      simp only [fetchDeps] at h
      split at h
      · exact Except.noConfusion h
      · next v st1 hf1 =>
          split at h
          · exact Except.noConfusion h
          · next vs2 st2 hrest =>
              injection h with h2
              injection h2 with hvs hst
              rw [← hst]
              exact preserves_trans (hf _ _ _ _ hf1) (ih st1 vs2 st2 hrest)

/-- The frame property of `fetch`: a successful fetch never changes the
parameter registry, the service registry, or the cache, and the allocation
counter is monotone. -/
theorem fetch_preserves :
    ∀ (fuel : Nat) (st : State) (nm : String) (v : Value) (st' : State),
      fetch fuel st nm = .ok (v, st') → Preserves st st' := by
  intro fuel
  induction fuel with
  | zero =>
      intro st nm v st' h
      exact Except.noConfusion h
  | succ n ih =>
      intro st nm v st' h
      cases hs : mapGet st.services nm with
      | some defn =>
          rw [fetch_succ_service n hs] at h
          obtain ⟨-, args, st1, fname, hdeps, -, -, hst⟩ := resolve_ok_inv h
          have h1 : Preserves st st1 :=
            fetchDeps_preserves (fun a b c d => ih a b c d) _ st args st1 hdeps
          rw [hst]
          exact preserves_trans h1 ⟨rfl, rfl, rfl, Nat.le_succ _⟩
      | none =>
          cases hp : mapGet st.parameters nm with
          | some w =>
              rw [fetch_succ_param n hs hp] at h
              injection h with h2
              injection h2 with hv hst
              rw [← hst]
              exact preserves_self st
          | none =>
              rw [fetch_succ_missing n hs hp] at h
              exact Except.noConfusion h

/-! ### Where `ContainerNotFoundError` can come from -/

theorem fetchDeps_notFound {f : State → String → Except JsErr (Value × State)}
    (hpres : ∀ st d v st', f st d = .ok (v, st') → Preserves st st')
    (hnf : ∀ st d m, f st d = .error (.notFound m) →
      mapGet st.parameters m = none ∧ mapGet st.services m = none) :
    ∀ (ds : List String) (st : State) (m : String),
      fetchDeps f st ds = .error (.notFound m) →
      mapGet st.parameters m = none ∧ mapGet st.services m = none := by
  intro ds
  induction ds with
  | nil =>
      intro st m h
      simp only [fetchDeps] at h
      exact Except.noConfusion h
  | cons d ds ih =>
      intro st m h
      simp only [fetchDeps] at h
      split at h
      · next e he =>
          injection h with h2
          rw [h2] at he
          exact hnf st d m he
      · next v st1 hf1 =>
          split at h
          · next e he =>
              injection h with h2
              rw [h2] at he
              have h1 := ih st1 m he
              obtain ⟨hsv, hpa, -, -⟩ := hpres st d v st1 hf1
              rw [hpa, hsv] at h1
              exact h1
          · exact Except.noConfusion h

/-- `fetch` produces `ContainerNotFoundError(m)` only for a key `m` that is in
neither the parameter registry nor the service registry (the error may name a
transitively fetched dependency key, but that key is always unregistered). -/
theorem fetch_notFound_unregistered :
    ∀ (fuel : Nat) (st : State) (nm m : String),
      fetch fuel st nm = .error (.notFound m) →
      mapGet st.parameters m = none ∧ mapGet st.services m = none := by
  intro fuel
  induction fuel with
  | zero =>
      intro st nm m h
      simp only [fetch] at h
      injection h with h2
      exact JsErr.noConfusion h2
  | succ n ih =>
      intro st nm m h
      cases hs : mapGet st.services nm with
      | some defn =>
          rw [fetch_succ_service n hs] at h
          simp only [resolve] at h
          split at h
          · injection h with h2
            exact JsErr.noConfusion h2
          · split at h
            · next e he =>
                injection h with h2
                rw [h2] at he
                exact fetchDeps_notFound
                  (fun a b c d => fetch_preserves n a b c d)
                  (fun a b c => ih a b c) _ st m he
            · next args st1 hdeps =>
                split at h
                · next e he =>
                    injection h with h2
                    cases hcl : defn.classname <;> rw [hcl] at he <;>
                      simp only [construct] at he
                    all_goals first
                    | exact Except.noConfusion he
                    | (rw [h2] at he
                       injection he with h3
                       exact JsErr.noConfusion h3)
                · exact Except.noConfusion h
      | none =>
          cases hp : mapGet st.parameters nm with
          | some w =>
              rw [fetch_succ_param n hs hp] at h
              exact Except.noConfusion h
          | none =>
              rw [fetch_succ_missing n hs hp] at h
              injection h with h2
              injection h2 with h3
              rw [← h3]
              exact ⟨hp, hs⟩

/-- Fetching a name bound to a service definition always constructs: the
result is an instance whose allocation id is new relative to the starting
state and used up in the resulting state.  (The cached-return path of
`resolve` is unreachable: when `definition.shared` is truthy the condition
itself throws, and on every record the container stores it is `undefined`.) -/
theorem fetch_service_fresh {fuel : Nat} {st : State} {nm : String} {defn : Definition}
    {v : Value} {st' : State}
    (hs : mapGet st.services nm = some defn)
    (h : fetch fuel st nm = .ok (v, st')) :
    ∃ fname args i, v = .obj fname args i ∧ st.nextId ≤ i ∧ i < st'.nextId := by
  cases fuel with
  | zero => exact Except.noConfusion h
  | succ n =>
      rw [fetch_succ_service n hs] at h
      obtain ⟨-, args, st1, fname, hdeps, -, hv, hst⟩ := resolve_ok_inv h
      obtain ⟨-, -, -, hle⟩ :=
        fetchDeps_preserves (fun a b c d => fetch_preserves n a b c d) _ st args st1 hdeps
      refine ⟨fname, args, st1.nextId, hv, hle, ?_⟩
      rw [hst]
      exact Nat.lt_succ_self _

/-! ### Registration -/

theorem ensureUniqueness_ok_iff (st : State) (nm : String) :
    ensureUniqueness st nm = .ok () ↔
      mapHas st.parameters nm = false ∧ mapHas st.services nm = false := by
  constructor
  · intro h
    simp only [ensureUniqueness] at h
    split at h
    · exact Except.noConfusion h
    · split at h
      · exact Except.noConfusion h
      · next h1 h2 => exact ⟨by simpa using h1, by simpa using h2⟩
  · intro ⟨h1, h2⟩
    simp [ensureUniqueness, h1, h2]

theorem ensureUniqueness_dup_param {st : State} {nm : String}
    (h : mapHas st.parameters nm = true) :
    ensureUniqueness st nm = .error (.duplicate nm "parameter") := by
  simp [ensureUniqueness, h]

theorem ensureUniqueness_dup_service {st : State} {nm : String}
    (h1 : mapHas st.parameters nm = false) (h2 : mapHas st.services nm = true) :
    ensureUniqueness st nm = .error (.duplicate nm "service") := by
  simp [ensureUniqueness, h1, h2]

/-- Effect of a successful `registerDefinition`: the uniqueness check passed,
the new definition record (with NO `shared` property: `shared? = none`) is
appended to the service registry, and nothing else changes. -/
theorem registerDefinition_ok_inv {st : State} {nm : String} {cl : Value}
    {deps : List String} {tag : Option String} {sh : Bool} {st' : State}
    (h : registerDefinition st nm cl deps tag sh = .ok st') :
    mapHas st.parameters nm = false ∧ mapHas st.services nm = false ∧
    st' = { st with
            services := st.services ++
              [(nm, { classname := cl, name := nm, dependencies := deps,
                      tag := tag, shared? := none })] } := by
  simp only [registerDefinition] at h
  split at h
  · exact Except.noConfusion h
  · next u he =>
      cases u
      obtain ⟨h1, h2⟩ := (ensureUniqueness_ok_iff st nm).mp he
      injection h with h3
      refine ⟨h1, h2, ?_⟩
      rw [← h3, mapSet_of_not_has _ h2]

/-- Effect of a successful `registerParameter`: the uniqueness check passed,
the value is appended verbatim to the parameter registry, and nothing else
changes. -/
theorem registerParameter_ok_inv {st : State} {nm : String} {v : Value} {st' : State}
    (h : registerParameter st nm v = .ok st') :
    mapHas st.parameters nm = false ∧ mapHas st.services nm = false ∧
    st' = { st with parameters := st.parameters ++ [(nm, v)] } := by
  simp only [registerParameter] at h
  split at h
  · exact Except.noConfusion h
  · next u he =>
      cases u
      obtain ⟨h1, h2⟩ := (ensureUniqueness_ok_iff st nm).mp he
      injection h with h3
      refine ⟨h1, h2, ?_⟩
      rw [← h3, mapSet_of_not_has _ h1]

/-! ### The disjointness invariant of reachable states -/

theorem mapHas_append_single_iff {α : Type} (m : List (String × α)) (key k : String) (v : α) :
    mapHas (m ++ [(key, v)]) k = true ↔ (mapHas m k = true ∨ key = k) := by
  constructor
  · intro h
    cases hm : mapGet m k with
    | some w => exact Or.inl (by simp [mapHas, hm])
    | none =>
        right
        rw [mapHas, mapGet_append_of_none hm, mapGet_single] at h
        by_cases hk : key = k
        · exact hk
        · rw [if_neg hk] at h
          simp at h
  · intro h
    cases h with
    | inl h =>
        obtain ⟨w, hw⟩ := (mapHas_iff_get m k).mp h
        simp [mapHas, mapGet_append_of_some hw]
    | inr h =>
        cases hm : mapGet m k with
        | some w => simp [mapHas, mapGet_append_of_some hm]
        | none => simp [mapHas, mapGet_append_of_none hm, mapGet_single, h]

theorem disjoint_after_regDef {st st' : State} {nm : String} {cl : Value}
    {deps : List String} {tag : Option String} {sh : Bool}
    (hd : DisjointKeys st) (h : registerDefinition st nm cl deps tag sh = .ok st') :
    DisjointKeys st' := by
  obtain ⟨h1, h2, hst⟩ := registerDefinition_ok_inv h
  rw [hst]
  intro k ⟨hp, hs⟩
  simp only at hp hs
  rcases (mapHas_append_single_iff st.services nm k _).mp hs with h3 | h3
  · exact hd k ⟨hp, h3⟩
  · rw [← h3] at hp
    rw [hp] at h1
    exact Bool.noConfusion h1

theorem disjoint_after_regParam {st st' : State} {nm : String} {v : Value}
    (hd : DisjointKeys st) (h : registerParameter st nm v = .ok st') :
    DisjointKeys st' := by
  obtain ⟨h1, h2, hst⟩ := registerParameter_ok_inv h
  rw [hst]
  intro k ⟨hp, hs⟩
  simp only at hp hs
  rcases (mapHas_append_single_iff st.parameters nm k _).mp hp with h3 | h3
  · exact hd k ⟨h3, hs⟩
  · rw [← h3] at hs
    rw [hs] at h2
    exact Bool.noConfusion h2

/-- Every reachable container state keeps the parameter keys and the
service-definition keys disjoint. -/
theorem reachable_disjoint {st : State} (h : Reachable st) : DisjointKeys st := by
  induction h with
  | init =>
      intro k ⟨hp, hs⟩
      simp [initialState, mapHas, mapGet] at hp
  | reg hr hop ih =>
      simp only [register] at hop
      split at hop
      · exact disjoint_after_regDef ih hop
      · exact disjoint_after_regParam ih hop
  | regDef hr hop ih => exact disjoint_after_regDef ih hop
  | regParam hr hop ih => exact disjoint_after_regParam ih hop
  | fetched hr hop ih =>
      obtain ⟨hsv, hpa, -, -⟩ := fetch_preserves _ _ _ _ _ hop
      intro k hk
      rw [hpa, hsv] at hk
      exact ih k hk

/-! ### Remaining helper lemmas -/

theorem mapGet_eq_none_of_not_has {α : Type} {m : List (String × α)} {k : String}
    (h : mapHas m k = false) : mapGet m k = none := by
  rw [mapHas] at h
  cases hm : mapGet m k with
  | none => rfl
  | some w =>
      rw [hm] at h
      exact Bool.noConfusion h

/-- The argument list `fetchDeps` produces is exactly a left-to-right,
order-preserving sequence of single fetches. -/
theorem fetchDeps_fetchesInOrder {f : State → String → Except JsErr (Value × State)} :
    ∀ (ds : List String) (st : State) (vs : List Value) (st' : State),
      fetchDeps f st ds = .ok (vs, st') → FetchesInOrder f st ds vs st' := by
  intro ds
  induction ds with
  | nil =>
      intro st vs st' h
      simp only [fetchDeps] at h
      injection h with h2
      injection h2 with hvs hst
      rw [← hvs, ← hst]
      exact FetchesInOrder.nil st
  | cons d ds ih =>
      intro st vs st' h
      simp only [fetchDeps] at h
      split at h
      · exact Except.noConfusion h
      · next v st1 hf1 =>
          split at h
          · exact Except.noConfusion h
          · next vs2 st2 hrest =>
              injection h with h2
              injection h2 with hvs hst
              rw [← hvs, ← hst]
              exact FetchesInOrder.cons hf1 (ih st1 vs2 st2 hrest)

/-- The source heuristic `isConstructor` agrees with the spec's wording
"callable AND has a non-empty name identifier". -/
theorem isConstructor_iff_spec (v : Value) :
    isConstructor v = true ↔ SpecServiceFactory v := by
  cases v <;> simp [isConstructor, SpecServiceFactory]

/-! ### The claims -/

/-- Claim C1: the spec says a service registered through `register` with
`shared` left at its default `true` is constructed once and every later
`fetch` returns the identical cached instance without re-invoking the
factory.  The code does not do this: `registerDefinition` stores
`{ classname, name, dependencies, tag }` and drops `shared`, so
`resolve` reads `definition.shared` as `undefined` and never consults nor
populates the cache.  Evaluated at the failing input: register `"Logger"`
(a named constructor, `shared` defaulted to `true`), then fetch twice — the
two fetches return two distinct instances (allocation ids 0 and 1, i.e. the
factory ran twice) and the cache is still empty. -/
theorem claim1_shared_default_not_cached :
    (do
      let st1 ← register initialState "Logger" (.func "Logger") [] none true
      let r1 ← fetch 2 st1 "Logger"
      let r2 ← fetch 2 r1.2 "Logger"
      pure (r1.1, r2.1, r2.2.cache) :
        Except JsErr (Value × Value × List (String × Value))) =
      .ok (.obj "Logger" [] 0, .obj "Logger" [] 1, []) ∧
    Value.obj "Logger" [] 0 ≠ Value.obj "Logger" [] 1 := by
  constructor
  · rfl
  · intro h
    injection h with h1 h2 h3
    simp at h3

/-- Claim C2: the spec requires the stored definition record to retain the
caller's `shared` flag as a field.  It does not: the record
`registerDefinition` stores has no `shared` property at all (embedded as
`shared? = none`) even when the caller passes `shared = true`, and the
stored state is completely independent of the `shared` argument. -/
theorem claim2_shared_flag_dropped :
    registerDefinition initialState "Logger" (.func "Logger") [] none true =
      .ok { cache := [],
            services := [("Logger",
              { classname := .func "Logger", name := "Logger",
                dependencies := [], tag := none, shared? := none })],
            parameters := [], nextId := 0 } ∧
    (∀ (st : State) (nm : String) (cl : Value) (deps : List String)
        (tag : Option String) (sh1 sh2 : Bool),
      registerDefinition st nm cl deps tag sh1 =
        registerDefinition st nm cl deps tag sh2) :=
  ⟨rfl, fun _ _ _ _ _ _ _ => rfl⟩

/-- Claim C3: registering an already-used name — by `registerParameter`,
`registerDefinition`, or `register`, whichever kind the existing entry is —
throws `ContainerDuplicateError` carrying the key name and the registry
("parameter" or "service") that already holds it; the thrown error escapes
before any mutation, so the state of the first registration is untouched
(the operations return only the error, no changed state). -/
theorem claim3_duplicate_registration (st : State) (nm : String) (v cl : Value)
    (deps : List String) (tag : Option String) (sh : Bool) :
    (mapHas st.parameters nm = true →
      registerParameter st nm v = .error (.duplicate nm "parameter") ∧
      registerDefinition st nm cl deps tag sh = .error (.duplicate nm "parameter") ∧
      register st nm v deps tag sh = .error (.duplicate nm "parameter")) ∧
    (mapHas st.parameters nm = false → mapHas st.services nm = true →
      registerParameter st nm v = .error (.duplicate nm "service") ∧
      registerDefinition st nm cl deps tag sh = .error (.duplicate nm "service") ∧
      register st nm v deps tag sh = .error (.duplicate nm "service")) := by
  constructor
  · intro hp
    have he := ensureUniqueness_dup_param hp
    refine ⟨?_, ?_, ?_⟩
    · simp [registerParameter, he]
    · simp [registerDefinition, he]
    · rw [register]
      split <;> simp [registerParameter, registerDefinition, he]
  · intro hp hs
    have he := ensureUniqueness_dup_service hp hs
    refine ⟨?_, ?_, ?_⟩
    · simp [registerParameter, he]
    · simp [registerDefinition, he]
    · rw [register]
      split <;> simp [registerParameter, registerDefinition, he]

/-- Witness for claim C3: on a container already holding parameter `"x"`,
re-registering `"x"` as a parameter throws
`ContainerDuplicateError("x", "parameter")`. -/
theorem claim3_witness :
    registerParameter
      { cache := [], services := [], parameters := [("x", Value.str "a")], nextId := 0 }
      "x" (.str "b") = .error (.duplicate "x" "parameter") :=
  ((claim3_duplicate_registration
      { cache := [], services := [], parameters := [("x", Value.str "a")], nextId := 0 }
      "x" (.str "b") (.str "b") [] none true).1 rfl).1

/-- Claim C4: in every container state reachable through the public
operations, no key is simultaneously a parameter key and a
service-definition key — every registration under an occupied key fails
before mutating either registry, and `fetch` touches neither. -/
theorem claim4_registries_disjoint {st : State} (h : Reachable st) (k : String) :
    ¬(mapHas st.parameters k = true ∧ mapHas st.services k = true) :=
  reachable_disjoint h k

/-- Witness for claim C4: the invariant instantiated at the reachable state
obtained by registering the parameter `"db.host"`. -/
theorem claim4_witness :
    ¬(mapHas ({ cache := [], services := [],
                parameters := [("db.host", Value.str "localhost")],
                nextId := 0 } : State).parameters "db.host" = true ∧
      mapHas ({ cache := [], services := [],
                parameters := [("db.host", Value.str "localhost")],
                nextId := 0 } : State).services "db.host" = true) :=
  claim4_registries_disjoint (Reachable.regParam Reachable.init rfl) "db.host"

/-- Claim C5: on a reachable container, fetching a registered parameter
returns the stored value itself with the state unchanged (hence identically
on every call); fetching a name in neither registry throws
`ContainerNotFoundError` carrying that name; and `ContainerNotFoundError(m)`
is thrown in no other situation — whenever `fetch` produces it, the key `m`
it names is in neither registry. -/
theorem claim5_parameter_and_missing {st : State} (h : Reachable st)
    (nm : String) (fuel : Nat) :
    (∀ v, mapGet st.parameters nm = some v → fetch (fuel + 1) st nm = .ok (v, st)) ∧
    (mapGet st.parameters nm = none → mapGet st.services nm = none →
      fetch (fuel + 1) st nm = .error (.notFound nm)) ∧
    (∀ m, fetch fuel st nm = .error (.notFound m) →
      mapGet st.parameters m = none ∧ mapGet st.services m = none) := by
  refine ⟨?_, ?_, ?_⟩
  · intro v hv
    have hs : mapGet st.services nm = none := by
      cases hsv : mapGet st.services nm with
      | none => rfl
      | some d =>
          exact absurd ⟨by simp [mapHas, hv], by simp [mapHas, hsv]⟩
            (reachable_disjoint h nm)
    exact fetch_succ_param fuel hs hv
  · intro hp hs
    exact fetch_succ_missing fuel hs hp
  · intro m hm
    exact fetch_notFound_unregistered fuel st nm m hm

/-- Witness for claim C5: after registering parameter `"db.host"` with value
`"localhost"`, fetching it returns that exact value and leaves the state
untouched. -/
theorem claim5_witness :
    fetch 1
      { cache := [], services := [], parameters := [("db.host", Value.str "localhost")],
        nextId := 0 }
      "db.host" =
    .ok (Value.str "localhost",
      { cache := [], services := [], parameters := [("db.host", Value.str "localhost")],
        nextId := 0 }) :=
  (claim5_parameter_and_missing (Reachable.regParam Reachable.init rfl)
    "db.host" 0).1 (Value.str "localhost") rfl

/-- Claim C6: whenever fetching a name bound to a service definition
succeeds, the constructed instance's positional argument list is exactly the
sequence of values obtained by fetching the definition's dependency keys one
by one in list order (`FetchesInOrder`): the value at every argument
position comes from the dependency key at the same position, so permuting
the dependency list permutes which positional argument receives which
value. -/
theorem claim6_dependency_order {fuel : Nat} {st : State} {nm : String}
    {defn : Definition} {v : Value} {st' : State}
    (hs : mapGet st.services nm = some defn)
    (h : fetch (fuel + 1) st nm = .ok (v, st')) :
    ∃ fname args stEnd,
      defn.classname = .func fname ∧
      FetchesInOrder (fetch fuel) st defn.dependencies args stEnd ∧
      v = .obj fname args stEnd.nextId ∧
      st' = { stEnd with nextId := stEnd.nextId + 1 } := by
  rw [fetch_succ_service fuel hs] at h
  obtain ⟨-, args, st1, fname, hdeps, hcl, hv, hst⟩ := resolve_ok_inv h
  exact ⟨fname, args, st1, hcl, fetchDeps_fetchesInOrder _ st args st1 hdeps, hv, hst⟩

/-- Witness for claim C6: in the scenario container, fetching `"App"`
(dependencies `["Logger", "db.host"]`) builds
`App(loggerInstance, "localhost")` — the argument list fetched in dependency
order. -/
theorem claim6_witness :
    ∃ fname args stEnd,
      Value.func "App" = Value.func fname ∧
      FetchesInOrder (fetch 4) scenarioState ["Logger", "db.host"] args stEnd ∧
      Value.obj "App" [Value.obj "Logger" [] 0, Value.str "localhost"] 1 =
        .obj fname args stEnd.nextId ∧
      ({ scenarioState with nextId := 2 } : State) =
        { stEnd with nextId := stEnd.nextId + 1 } :=
  @claim6_dependency_order 4 scenarioState "App"
    { classname := .func "App", name := "App",
      dependencies := ["Logger", "db.host"], tag := none, shared? := none }
    (Value.obj "App" [Value.obj "Logger" [] 0, Value.str "localhost"] 1)
    { scenarioState with nextId := 2 } rfl rfl

/-- Claim C7: `getTaggedService` returns exactly those stored definitions
whose `tag` field equals the queried value (strict equality, `null`
included), keeping the service registry's insertion order (the result is an
order-preserving sublist of the registry's values), and an empty list — not
an error — when nothing matches. -/
theorem claim7_getTaggedService (st : State) (tag : Option String) :
    (∀ d, d ∈ getTaggedService st tag ↔ (d ∈ mapValues st.services ∧ d.tag = tag)) ∧
    (getTaggedService st tag).Sublist (mapValues st.services) ∧
    ((∀ d, d ∈ mapValues st.services → d.tag ≠ tag) → getTaggedService st tag = []) := by
  refine ⟨?_, ?_, ?_⟩
  · intro d
    simp [getTaggedService, List.mem_filter]
  · exact List.filter_sublist _
  · intro hnone
    rw [getTaggedService, List.filter_eq_nil_iff]
    intro d hd
    simpa using hnone d hd

/-- Witness for claim C7: in the scenario container, tag `"core"` selects
exactly the `Logger` definition and the unused tag `"nope"` selects
nothing. -/
theorem claim7_witness :
    getTaggedService scenarioState (some "core") =
      [{ classname := .func "Logger", name := "Logger", dependencies := [],
         tag := some "core", shared? := none }] ∧
    getTaggedService scenarioState (some "nope") = [] :=
  ⟨rfl, (claim7_getTaggedService scenarioState (some "nope")).2.2 (by decide)⟩

/-- Claim C8: `register` stores its value as a service definition exactly
when the value is a callable with a non-empty name identifier
(`isConstructor` agrees with that characterisation); any other value — an
anonymous callable included — is stored as a plain parameter whose stored
value is the value itself. -/
theorem claim8_register_dispatch :
    (∀ v, isConstructor v = true ↔ SpecServiceFactory v) ∧
    (∀ (st : State) (nm : String) (v : Value) (deps : List String)
        (tag : Option String) (sh : Bool) (st' : State),
      register st nm v deps tag sh = .ok st' →
      (SpecServiceFactory v →
        mapGet st'.services nm =
          some { classname := v, name := nm, dependencies := deps, tag := tag,
                 shared? := none } ∧
        st'.parameters = st.parameters) ∧
      (¬SpecServiceFactory v →
        mapGet st'.parameters nm = some v ∧ st'.services = st.services)) := by
  refine ⟨isConstructor_iff_spec, ?_⟩
  intro st nm v deps tag sh st' hreg
  rw [register] at hreg
  by_cases hc : isConstructor v = true
  · rw [if_pos hc] at hreg
    obtain ⟨h1, h2, hst⟩ := registerDefinition_ok_inv hreg
    constructor
    · intro hspec
      rw [hst]
      refine ⟨?_, rfl⟩
      simp only
      rw [mapGet_append_of_none (mapGet_eq_none_of_not_has h2), mapGet_single,
        if_pos rfl]
    · intro hspec
      exact absurd ((isConstructor_iff_spec v).mp hc) hspec
  · rw [if_neg hc] at hreg
    obtain ⟨h1, h2, hst⟩ := registerParameter_ok_inv hreg
    constructor
    · intro hspec
      exact absurd ((isConstructor_iff_spec v).mpr hspec) hc
    · intro hspec
      rw [hst]
      refine ⟨?_, rfl⟩
      simp only
      rw [mapGet_append_of_none (mapGet_eq_none_of_not_has h1), mapGet_single,
        if_pos rfl]

/-- Witness for claim C8: registering the anonymous callable (`name` is the
empty string) under `"anon"` stores it as a plain parameter, holding the
function value itself. -/
theorem claim8_witness :
    mapGet ({ cache := [], services := [],
              parameters := [("anon", Value.func "")],
              nextId := 0 } : State).parameters "anon" = some (Value.func "") :=
  ((claim8_register_dispatch.2 initialState "anon" (.func "") [] none true
      { cache := [], services := [], parameters := [("anon", Value.func "")],
        nextId := 0 }
      rfl).2 (by simp [SpecServiceFactory])).1

/-- Claim C9: fetching a service name twice in a row constructs two
distinct instances and stores neither in the cache (the dependency fetches
rerun on each call as part of constructing anew).  Since `registerDefinition`
stores the same record regardless of the `shared` argument, this covers in
particular every service registered with `shared = false`. -/
theorem claim9_transient_fresh {st : State} {nm : String} {n1 n2 : Nat}
    {v1 v2 : Value} {st1 st2 : State}
    (hs : mapHas st.services nm = true)
    (h1 : fetch n1 st nm = .ok (v1, st1))
    (h2 : fetch n2 st1 nm = .ok (v2, st2)) :
    v1 ≠ v2 ∧ st1.cache = st.cache ∧ st2.cache = st1.cache := by
  obtain ⟨defn, hdefn⟩ := (mapHas_iff_get _ _).mp hs
  obtain ⟨f1, a1, i1, hv1, hle1, hlt1⟩ := fetch_service_fresh hdefn h1
  obtain ⟨hsv1, hpa1, hca1, -⟩ := fetch_preserves n1 st nm v1 st1 h1
  have hdefn1 : mapGet st1.services nm = some defn := by
    rw [hsv1]
    exact hdefn
  obtain ⟨f2, a2, i2, hv2, hle2, hlt2⟩ := fetch_service_fresh hdefn1 h2
  obtain ⟨-, -, hca2, -⟩ := fetch_preserves n2 st1 nm v2 st2 h2
  refine ⟨?_, hca1, hca2⟩
  rw [hv1, hv2]
  intro heq
  injection heq with e1 e2 e3
  have hlt : i1 < i2 := Nat.lt_of_lt_of_le hlt1 hle2
  rw [e3] at hlt
  exact Nat.lt_irrefl i2 hlt

/-- Witness for claim C9: `"Logger"` registered with `shared = false`
(stored state shown literally), fetched twice: two distinct instances
(allocation ids 0 and 1), cache empty throughout. -/
theorem claim9_witness :
    Value.obj "Logger" [] 0 ≠ Value.obj "Logger" [] 1 ∧
    ({ cache := [],
       services := [("Logger", { classname := .func "Logger", name := "Logger",
                                 dependencies := [], tag := none, shared? := none })],
       parameters := [], nextId := 1 } : State).cache =
      ({ cache := [],
         services := [("Logger", { classname := .func "Logger", name := "Logger",
                                   dependencies := [], tag := none, shared? := none })],
         parameters := [], nextId := 0 } : State).cache ∧
    ({ cache := [],
       services := [("Logger", { classname := .func "Logger", name := "Logger",
                                 dependencies := [], tag := none, shared? := none })],
       parameters := [], nextId := 2 } : State).cache =
      ({ cache := [],
         services := [("Logger", { classname := .func "Logger", name := "Logger",
                                   dependencies := [], tag := none, shared? := none })],
         parameters := [], nextId := 1 } : State).cache :=
  @claim9_transient_fresh
    { cache := [],
      services := [("Logger", { classname := .func "Logger", name := "Logger",
                                dependencies := [], tag := none, shared? := none })],
      parameters := [], nextId := 0 }
    "Logger" 1 1 (Value.obj "Logger" [] 0) (Value.obj "Logger" [] 1)
    { cache := [],
      services := [("Logger", { classname := .func "Logger", name := "Logger",
                                dependencies := [], tag := none, shared? := none })],
      parameters := [], nextId := 1 }
    { cache := [],
      services := [("Logger", { classname := .func "Logger", name := "Logger",
                                dependencies := [], tag := none, shared? := none })],
      parameters := [], nextId := 2 }
    rfl rfl rfl

/-- Claim C10: a successful `fetch` — including every recursive dependency
resolution inside it — leaves the parameter registry and the service
registry exactly as they were; the instance cache loses no entry (in this
code it gains none either: the caching branch is dead because the stored
records carry no `shared` property). -/
theorem claim10_fetch_frame {fuel : Nat} {st : State} {nm : String} {v : Value}
    {st' : State}
    (h : fetch fuel st nm = .ok (v, st')) :
    st'.parameters = st.parameters ∧ st'.services = st.services ∧
    (∀ k w, mapGet st.cache k = some w → mapGet st'.cache k = some w) := by
  obtain ⟨hsv, hpa, hca, -⟩ := fetch_preserves fuel st nm v st' h
  refine ⟨hpa, hsv, ?_⟩
  intro k w hw
  rw [hca]
  exact hw

/-- Witness for claim C10: fetching `"App"` in the scenario container (which
recursively fetches `"Logger"` and `"db.host"`) leaves both registries
unchanged. -/
theorem claim10_witness :
    ({ scenarioState with nextId := 2 } : State).parameters =
      scenarioState.parameters ∧
    ({ scenarioState with nextId := 2 } : State).services =
      scenarioState.services :=
  ⟨(@claim10_fetch_frame 5 scenarioState "App"
      (Value.obj "App" [Value.obj "Logger" [] 0, Value.str "localhost"] 1)
      { scenarioState with nextId := 2 } rfl).1,
   (@claim10_fetch_frame 5 scenarioState "App"
      (Value.obj "App" [Value.obj "Logger" [] 0, Value.str "localhost"] 1)
      { scenarioState with nextId := 2 } rfl).2.1⟩

end Container
